import Mathlib

/-!
Shallow embedding of the match-to-bundle encoder of the transaction
broadcaster: the Firestore order-match provider
(src/transaction/transaction.provider.abstract.ts) and the exchange-side
validation/packing pipeline (src/infinity-exchange.ts).

External RPC services (the exchange contract, ERC-20/ERC-721 contracts, the
gas estimator) are modelled as oracle functions collected in environment
structures; each oracle gives the value the corresponding call settles with
in the run under consideration.
-/

namespace TxBroadcaster

/-- JS BigNumberish value as it occurs in order constraints: the numeric
value together with its surface form (canonical decimal string, hex string,
or a JS number). -/
inductive BigNumberish where
  | dec (n : Nat)
  | hex (n : Nat)
  | num (n : Nat)
deriving DecidableEq

/-- Numeric value of a BigNumberish. -/
def BigNumberish.val : BigNumberish → Nat
  | .dec n => n
  | .hex n => n
  | .num n => n

/-- Embeds `BigNumber.from(item).toString()`: any representation becomes the
canonical decimal string of the same value. -/
def bnToString (b : BigNumberish) : BigNumberish := .dec b.val

/-- Whether a constraints entry is in canonical decimal-string form. -/
def BigNumberish.isCanonicalDecimal : BigNumberish → Bool
  | .dec _ => true
  | _ => false

/-- One `{tokenId, numTokens}` entry of a `ChainNFTs` token list. -/
structure OrderTokenEntry where
  tokenId : Nat
  numTokens : Nat
deriving DecidableEq

/-- `ChainNFTs`: a collection address with its token list. -/
structure ChainNFTs where
  collection : String
  tokens : List OrderTokenEntry
deriving DecidableEq

/-- `ChainOBOrder`. `execParams` is the two-element array
`[complicationAddress, currencyAddress]`, modelled as two fields
(`execParamsComplication` is entry 0, `execParamsCurrency` entry 1). -/
structure ChainOBOrder where
  isSellOrder : Bool
  signer : String
  constraints : List BigNumberish
  nfts : List ChainNFTs
  execParamsComplication : String
  execParamsCurrency : String
  extraParams : String
  sig : String
deriving DecidableEq

/-- The fields of `FirestoreOrder` the provider reads. -/
structure FirestoreOrder where
  chainId : String
  isSellOrder : Bool
  nonce : Nat
  complicationAddress : String
  currencyAddress : String
  signedOrder : ChainOBOrder
deriving DecidableEq

/-- `FirestoreOrderMatchMethod` (`match.type`). -/
inductive FirestoreOrderMatchMethod where
  | matchOrders
  | matchOneToOneOrders
deriving DecidableEq

/-- `FirestoreOrderMatchStatus` (`match.state.status`). -/
inductive FirestoreOrderMatchStatus where
  | inactive
  | active
  | matched
  | error
deriving DecidableEq

/-- One collection of `match.matchData.orderItems`: its address and the
`Object.values` of its token map in insertion order. -/
structure MatchOrderItemsCollection where
  collectionAddress : String
  tokens : List OrderTokenEntry
deriving DecidableEq

/-- The fields of a `FirestoreOrderMatch` document the provider reads.
`orderItems` lists `Object.values(match.matchData.orderItems)` in insertion
order. -/
structure FirestoreOrderMatch where
  status : FirestoreOrderMatchStatus
  methodType : FirestoreOrderMatchMethod
  orderItems : List MatchOrderItemsCollection
deriving DecidableEq

/-- `FirestoreOrderMatchErrorCode` values used by the pipeline. -/
inductive FirestoreOrderMatchErrorCode where
  | orderInvalid
  | notApprovedToTransferToken
  | insufficientTokenBalance
  | insufficientCurrencyAllowance
  | insufficientCurrencyBalance
  | unknownError
deriving DecidableEq

/-- `MatchOrdersOneToOneBundleItem` (without the literal `bundleType` tag,
which the union below carries). -/
structure MatchOrdersOneToOneBundleItem where
  id : String
  chainId : String
  exchangeAddress : String
  sell : ChainOBOrder
  buy : ChainOBOrder
  sellOrderHash : String
  buyOrderHash : String
deriving DecidableEq

/-- `MatchOrdersBundleItem`: the one-to-one fields plus the constructed
synthetic order. -/
structure MatchOrdersBundleItem extends MatchOrdersOneToOneBundleItem where
  constructed : ChainOBOrder
deriving DecidableEq

/-- The `BundleItem` discriminated union; the constructor is the
`bundleType` discriminant. -/
inductive BundleItem where
  | matchOrders (item : MatchOrdersBundleItem)
  | matchOrdersOneToOne (item : MatchOrdersOneToOneBundleItem)
deriving DecidableEq

/-- `bundleItem.sell` on the union. -/
def BundleItem.sellOrder : BundleItem → ChainOBOrder
  | .matchOrders item => item.sell
  | .matchOrdersOneToOne item => item.sell

/-- `bundleItem.buy` on the union. -/
def BundleItem.buyOrder : BundleItem → ChainOBOrder
  | .matchOrders item => item.buy
  | .matchOrdersOneToOne item => item.buy

/-- The nft list the seller pass walks:
`bundleItem.bundleType === BundleType.MatchOrders ? bundleItem.constructed.nfts
: bundleItem.sell.nfts` (infinity-exchange.ts line 295). -/
def BundleItem.sellerNfts : BundleItem → List ChainNFTs
  | .matchOrders item => item.constructed.nfts
  | .matchOrdersOneToOne item => item.sell.nfts

/-! ## The Firestore order transaction provider
(src/transaction/transaction.provider.abstract.ts) -/

/-- The provider's external collaborators: `orderHash` from utils/order-hash
and `getExchangeAddress` from the shared library, both opaque to this
repository. -/
structure ProviderEnv where
  orderHash : ChainOBOrder → String
  exchangeAddressOf : String → String

/-- One step of the `createBundleItem` flattening loop (lines 137-158): for
one collection, push its `{collection, tokens}` entry (even when the token
list is empty) and add `max 1 (number of tokens)` to `numMatches`. -/
def flattenStep (acc : List ChainNFTs × Nat) (c : MatchOrderItemsCollection) :
    List ChainNFTs × Nat :=
  let collectionChainNfts : ChainNFTs :=
    { collection := c.collectionAddress
      tokens := c.tokens.map (fun t => { tokenId := t.tokenId, numTokens := t.numTokens }) }
  let collectionNumMatches := c.tokens.length
  let collectionNumMatches :=
    if collectionNumMatches = 0 then collectionNumMatches + 1 else collectionNumMatches
  (acc.1 ++ [collectionChainNfts], acc.2 + collectionNumMatches)

/-- The flattening loop of `createBundleItem`: `(chainNfts, numMatches)`. -/
def flattenOrderItems (collections : List MatchOrderItemsCollection) :
    List ChainNFTs × Nat :=
  collections.foldl flattenStep ([], 0)

/-- `getMatchOrdersBundle` (lines 181-224): build the constructed synthetic
order from the pre-normalization constraint entries, then normalize both
signed orders' constraints and assemble the bundle item. Out-of-range
constraint indices (impossible for the six-entry constraints of the data
model) default to `.num 0`. -/
def getMatchOrdersBundle (env : ProviderEnv) (id : String)
    (listing offer : FirestoreOrder) (numMatches : Nat)
    (chainNfts : List ChainNFTs) : MatchOrdersBundleItem :=
  let constructed : ChainOBOrder :=
    { isSellOrder := false
      signer := listing.signedOrder.signer
      constraints :=
        [ .num numMatches,
          bnToString (offer.signedOrder.constraints.getD 1 (.num 0)),
          bnToString (offer.signedOrder.constraints.getD 2 (.num 0)),
          offer.signedOrder.constraints.getD 3 (.num 0),
          offer.signedOrder.constraints.getD 4 (.num 0),
          .num offer.nonce ]
      nfts := chainNfts
      execParamsComplication := listing.complicationAddress
      execParamsCurrency := listing.currencyAddress
      extraParams := listing.signedOrder.extraParams
      sig := listing.signedOrder.sig }
  let listingSigned :=
    { listing.signedOrder with
        constraints := listing.signedOrder.constraints.map bnToString }
  let offerSigned :=
    { offer.signedOrder with
        constraints := offer.signedOrder.constraints.map bnToString }
  { id := id
    chainId := listing.chainId
    exchangeAddress := env.exchangeAddressOf listing.chainId
    sell := listingSigned
    buy := offerSigned
    buyOrderHash := env.orderHash offerSigned
    sellOrderHash := env.orderHash listingSigned
    constructed := constructed }

/-- `createBundleItem` (lines 128-179): flatten the match's order items,
then build the variant the match's `type` selects. The one-to-one branch
uses both signed orders unmodified. -/
def createBundleItem (env : ProviderEnv) (id : String)
    (listing offer : FirestoreOrder) (m : FirestoreOrderMatch) : BundleItem :=
  let flat := flattenOrderItems m.orderItems
  match m.methodType with
  | .matchOrders =>
      .matchOrders (getMatchOrdersBundle env id listing offer flat.2 flat.1)
  | .matchOneToOneOrders =>
      .matchOrdersOneToOne
        { id := id
          chainId := listing.chainId
          exchangeAddress := env.exchangeAddressOf listing.chainId
          sell := listing.signedOrder
          buy := offer.signedOrder
          buyOrderHash := env.orderHash offer.signedOrder
          sellOrderHash := env.orderHash listing.signedOrder }

/-- The errors `handleOrderMatchUpdate` can catch: the thrown messages
of transaction.provider.abstract.ts. `orderMissing` is
thrown as 'Order not found', `multipleOrdersUnsupported` as 'Multiple
orders are not yet supported', `matchNotActive` as 'Order match is not
active'. -/
inductive BuildError where
  | orderMissing
  | multipleOrdersUnsupported
  | matchNotActive
deriving DecidableEq

/-- The non-null fetched orders with `isSellOrder === true`
(`getOrders` line 239). -/
def listingsOf (fetched : List (Option FirestoreOrder)) : List FirestoreOrder :=
  (fetched.filterMap id).filter (fun o => o.isSellOrder = true)

/-- The non-null fetched orders with `isSellOrder === false`
(`getOrders` line 240). -/
def offersOf (fetched : List (Option FirestoreOrder)) : List FirestoreOrder :=
  (fetched.filterMap id).filter (fun o => o.isSellOrder = false)

/-- `getOrders` (lines 230-253) applied to the batched read's result
(`none` entries are documents whose `data()` is undefined): take the head
of each partition, fail with 'Order not found' when either is missing, then
with 'Multiple orders...' when either partition has more than one order. -/
def getOrders (fetched : List (Option FirestoreOrder)) :
    Except BuildError (FirestoreOrder × FirestoreOrder) :=
  let listings := listingsOf fetched
  let offers := offersOf fetched
  match listings.head?, offers.head? with
  | some listing, some offer =>
      if 1 < listings.length ∨ 1 < offers.length then
        .error .multipleOrdersUnsupported
      else
        .ok (listing, offer)
  | _, _ => .error .orderMissing

/-- The observable actions of `handleOrderMatchUpdate`: emitting the Update
event, logging an error to the console, or writing an error state to the
match document (`updateOrderMatch`, the `onInvalidated` write — present in
the effect type so its absence is expressible, the handler never produces
it). -/
inductive ProviderEffect where
  | emitUpdate (id : String) (item : BundleItem)
  | logError (e : BuildError)
  | setMatchErrorState (id : String) (code : FirestoreOrderMatchErrorCode)
deriving DecidableEq

/-- `handleOrderMatchUpdate` (lines 114-126): reject non-active matches,
read the two orders, build the bundle item and emit it; any thrown error is
caught and logged (`console.error`) — nothing else happens on the error
path. -/
def handleOrderMatchUpdate (env : ProviderEnv) (id : String)
    (m : FirestoreOrderMatch) (fetched : List (Option FirestoreOrder)) :
    List ProviderEffect :=
  if m.status ≠ FirestoreOrderMatchStatus.active then
    [.logError .matchNotActive]
  else
    match getOrders fetched with
    | .error e => [.logError e]
    | .ok (listing, offer) =>
        [.emitUpdate id (createBundleItem env id listing offer m)]

/-! ## The exchange-side pipeline (src/infinity-exchange.ts) -/

/-- A `matchOrders` argument tuple for one bucket:
`(sells, buys, constructed)` where `constructed` lists each item's
`constructed.nfts` (lines 421-423). -/
def MatchOrdersArgs : Type :=
  List ChainOBOrder × List ChainOBOrder × List (List ChainNFTs)

/-- The chain-facing environment of the MatchOrders encoder for one
`(chainId, signerAddress)` pair: the settled values of every external call
in the run under consideration.

* `verifyMatchOrders h1 h2 sell buy`: `none` when the contract call's
  promise rejects, `some v` when it fulfills with `v`.
* `obOrderPrice order`: the value of the `getCurrentPrice` closure (lines
  483-491) — `getOBOrderPrice` of the order's Dutch-auction curve fields at
  `Date.now()`; the library curve evaluation is opaque to this repository.
* `isApprovedForAll collection signer operator`, `ownerOf collection
  tokenId`, `allowance currency buyer operator`, `balanceOf currency buyer`:
  the ERC-721/ERC-20 reads.
* `encodeCallData`: the opaque ABI encoding of one bucket's `matchOrders`
  call, `estimateGas data`: the gas estimate for calldata `data` sent from
  the signer to the exchange; `none` models the try-branch throwing
  (estimation failure, lines 107-114).
* `maxGasLimit` is `MAX_GAS_LIMIT` (utils/constants, not part of the two
  source files; kept as a parameter). -/
structure ChainEnv where
  exchangeAddress : String
  signerAddress : String
  chainIdNum : Nat
  wrappedNative : String
  maxGasLimit : Nat
  verifyMatchOrders : String → String → ChainOBOrder → ChainOBOrder → Option Bool
  obOrderPrice : ChainOBOrder → Nat
  isApprovedForAll : String → String → String → Bool
  ownerOf : String → Nat → String
  allowance : String → String → String → Nat
  balanceOf : String → String → Nat
  encodeCallData : MatchOrdersArgs → String
  estimateGas : String → Option Nat

/-- A MatchOrders bundle item with the verifier's `currentPrice`
(`BundleItemWithCurrentPrice` as it occurs in the MatchOrders pipeline,
where every item is of the MatchOrders variant). -/
structure MOWithPrice where
  item : MatchOrdersBundleItem
  currentPrice : Nat
deriving DecidableEq

/-- Whether an item's `verifyMatchOrders` call settles fulfilled with value
`true` (`result.status === 'fulfilled' && result.value`, line 482). -/
def settlesTrue (env : ChainEnv) (item : MatchOrdersBundleItem) : Prop :=
  env.verifyMatchOrders item.sellOrderHash item.buyOrderHash item.sell item.buy = some true

instance (env : ChainEnv) (item : MatchOrdersBundleItem) :
    Decidable (settlesTrue env item) := by
  unfold settlesTrue; infer_instance

/-- The verifier's two result lists. -/
structure VerifierResult where
  validBundleItems : List MOWithPrice
  invalidBundleItems : List MatchOrdersBundleItem
deriving DecidableEq

/-- One step of the `matchOrdersVerifier` reduce (lines 472-505): the item
joins the valid list with `currentPrice = sellPrice.gte(buyPrice) ?
buyPrice : sellPrice` when its call settled `true`, the invalid list
otherwise. -/
def matchOrdersVerifierStep (env : ChainEnv) (acc : VerifierResult)
    (item : MatchOrdersBundleItem) : VerifierResult :=
  let sellPrice := env.obOrderPrice item.sell
  let buyPrice := env.obOrderPrice item.buy
  let currentPrice := if buyPrice ≤ sellPrice then buyPrice else sellPrice
  if settlesTrue env item then
    { acc with validBundleItems := acc.validBundleItems ++ [⟨item, currentPrice⟩] }
  else
    { acc with invalidBundleItems := acc.invalidBundleItems ++ [item] }

/-- `matchOrdersVerifier` (lines 456-511). -/
def matchOrdersVerifier (env : ChainEnv) (items : List MatchOrdersBundleItem) :
    VerifierResult :=
  items.foldl (matchOrdersVerifierStep env) ⟨[], []⟩

/-- The encoder's attribution of verifier rejections (lines 143-151): each
invalid item paired with code `OrderInvalid`. -/
def invalidFromVerifyWithError (env : ChainEnv)
    (items : List MatchOrdersBundleItem) :
    List (MatchOrdersBundleItem × FirestoreOrderMatchErrorCode) :=
  (matchOrdersVerifier env items).invalidBundleItems.map
    (fun item => (item, .orderInvalid))

/-- `s.toLowerCase()` on an address string (character-wise ASCII
lowercasing). -/
def strToLower (s : String) : String := ⟨s.data.map Char.toLower⟩

/-- The token loop of the seller pass (lines 310-322): reject with
`InsufficientTokenBalance` at the first token whose
`ownerOf(tokenId).toLowerCase()` differs from the (un-lowercased) signer
address. -/
def checkTokens (env : ChainEnv) (collection signerAddress : String) :
    List OrderTokenEntry → Option FirestoreOrderMatchErrorCode
  | [] => none
  | t :: rest =>
      if signerAddress ≠ strToLower (env.ownerOf collection t.tokenId) then
        some .insufficientTokenBalance
      else
        checkTokens env collection signerAddress rest

/-- The collection loop of the seller pass (lines 297-323): per collection,
reject with `NotApprovedToTransferToken` when the exchange operator is not
approved, otherwise walk the tokens. -/
def checkCollections (env : ChainEnv) (signerAddress : String) :
    List ChainNFTs → Option FirestoreOrderMatchErrorCode
  | [] => none
  | c :: rest =>
      if env.isApprovedForAll c.collection signerAddress env.exchangeAddress = false then
        some .notApprovedToTransferToken
      else
        match checkTokens env c.collection signerAddress c.tokens with
        | some e => some e
        | none => checkCollections env signerAddress rest

/-- The per-item body of `checkNftSellerApprovalAndBalance` (lines 291-324)
on the bundle-item union: signer is `bundleItem.sell.signer`, the nft list
is `constructed.nfts` for MatchOrders items and `sell.nfts` for one-to-one
items. `none` means the item is valid. -/
def checkSellerItem (env : ChainEnv) (item : BundleItem) :
    Option FirestoreOrderMatchErrorCode :=
  checkCollections env item.sellOrder.signer item.sellerNfts

/-- The currency loop of `checkNftBuyerApprovalAndBalance` (lines 213-244):
per currency, `expectedCost = currentPrice * 11 / 10` (plus the `+ 0`
wrapped-native gas placeholder), reject with
`InsufficientCurrencyAllowance` when the allowance is below it, then with
`InsufficientCurrencyBalance` when the balance is. -/
def checkCurrencies (env : ChainEnv) (buyer : String) (currentPrice : Nat) :
    List String → Option FirestoreOrderMatchErrorCode
  | [] => none
  | currency :: rest =>
      let allowance := env.allowance currency buyer env.exchangeAddress
      let expectedCost := currentPrice * 11 / 10
      let expectedCost :=
        if currency = env.wrappedNative then expectedCost + 0 else expectedCost
      if allowance < expectedCost then
        some .insufficientCurrencyAllowance
      else if env.balanceOf currency buyer < expectedCost then
        some .insufficientCurrencyBalance
      else
        checkCurrencies env buyer currentPrice rest

/-- The deduplicated currency set `[...new Set([currency, weth])]` (lines
209-211), preserving insertion order. -/
def buyerCurrencies (env : ChainEnv) (item : BundleItem) : List String :=
  let currency := item.buyOrder.execParamsCurrency
  if currency = env.wrappedNative then [currency] else [currency, env.wrappedNative]

/-- The per-item body of `checkNftBuyerApprovalAndBalance` (lines 206-245)
on the bundle-item union: buyer is `bundleItem.buy.signer`. -/
def checkBuyerItem (env : ChainEnv) (item : BundleItem) (currentPrice : Nat) :
    Option FirestoreOrderMatchErrorCode :=
  checkCurrencies env item.buyOrder.signer currentPrice (buyerCurrencies env item)

/-- `checkNftSellerApprovalAndBalance` over the MatchOrders pipeline's
items: the map-then-reduce of lines 290-358 partitions the input, in
order, into the valid list and the invalid list with each rejection's
code (the error message strings are not modelled). -/
def checkNftSellerApprovalAndBalance (env : ChainEnv)
    (items : List MOWithPrice) :
    List MOWithPrice × List (MOWithPrice × FirestoreOrderMatchErrorCode) :=
  items.foldl
    (fun acc b =>
      match checkSellerItem env (.matchOrders b.item) with
      | none => (acc.1 ++ [b], acc.2)
      | some e => (acc.1, acc.2 ++ [(b, e)]))
    ([], [])

/-- `checkNftBuyerApprovalAndBalance` over the MatchOrders pipeline's
items (lines 196-280). -/
def checkNftBuyerApprovalAndBalance (env : ChainEnv)
    (items : List MOWithPrice) :
    List MOWithPrice × List (MOWithPrice × FirestoreOrderMatchErrorCode) :=
  items.foldl
    (fun acc b =>
      match checkBuyerItem env (.matchOrders b.item) b.currentPrice with
      | none => (acc.1 ++ [b], acc.2)
      | some e => (acc.1, acc.2 ++ [(b, e)]))
    ([], [])

/-! ## The bundle packer (buildBundles and the MatchOrders transformer) -/

/-- One round-robin bucket of the MatchOrders transformer (line 410). -/
structure MatchOrdersBucket where
  sells : List ChainOBOrder
  buys : List ChainOBOrder
  constructed : List (List ChainNFTs)
deriving DecidableEq

/-- `acc[index] = bundle` of the reduce: update in place when the slot
exists, append when `index` equals the current length. In the transformer
`index` never exceeds the length (indices `i % numBundles` fill the buckets
consecutively from 0), so the two cases cover every reachable state. -/
def listSetOrPush {β : Type} (acc : List β) (index : Nat) (b : β) : List β :=
  if index < acc.length then acc.set index b else acc ++ [b]

/-- One step of the `matchOrdersItemsToArgsTransformer` reduce (lines
409-420): item number `i` joins bucket `i % numBundles`, a missing bucket
starting from `{sells: [], buys: [], constructed: []}`. -/
def matchOrdersBucketStep (numBundles : Nat) (acc : List MatchOrdersBucket)
    (p : Nat × MatchOrdersBundleItem) : List MatchOrdersBucket :=
  let index := p.1 % numBundles
  let bundle := acc.getD index ⟨[], [], []⟩
  listSetOrPush acc index
    { sells := bundle.sells ++ [p.2.sell]
      buys := bundle.buys ++ [p.2.buy]
      constructed := bundle.constructed ++ [p.2.constructed.nfts] }

/-- `matchOrdersItemsToArgsTransformer` (lines 405-426): round-robin the
items into `numBundles` buckets and map each bucket to its argument
tuple. -/
def matchOrdersItemsToArgs (items : List MatchOrdersBundleItem)
    (numBundles : Nat) : List MatchOrdersArgs :=
  let bundles := items.enum.foldl (matchOrdersBucketStep numBundles) []
  bundles.map (fun b => (b.sells, b.buys, b.constructed))

/-- The transaction request the packer builds for one bucket (lines
100-106). The float `Math.floor(estimate * 1.2)` is modelled as the exact
`estimate * 12 / 10`. -/
structure TxRequest where
  toAddr : String
  gasLimit : Nat
  data : String
  chainId : Nat
  txType : Nat
deriving DecidableEq

/-- The surviving transaction requests of one `buildBundles` round (lines
89-117): encode each bucket, estimate its gas, drop buckets whose
estimation fails. -/
def bundleTxRequests (env : ChainEnv) (items : List MatchOrdersBundleItem)
    (numBundles : Nat) : List TxRequest :=
  (matchOrdersItemsToArgs items numBundles).filterMap (fun args =>
    let data := env.encodeCallData args
    (env.estimateGas data).map (fun estimate =>
      { toAddr := env.exchangeAddress
        gasLimit := estimate * 12 / 10
        data := data
        chainId := env.chainIdNum
        txType := 2 }))

/-- `Math.ceil(a / b)` on naturals (for `b ≥ 1`). -/
def ceilDivNat (a b : Nat) : Nat := (a + b - 1) / b

/-- `buildBundles` (lines 84-127) as a fuel-indexed function: each
recursive re-split consumes one unit of fuel, `none` meaning the recursion
has not returned within the given depth (the source recursion has no other
exit than the no-oversize return). When some surviving request's gas limit
exceeds `MAX_GAS_LIMIT` it recurses with
`numBundles >= estimatedNumBundles ? numBundles * 2 : estimatedNumBundles`
where `estimatedNumBundles = Math.ceil(transactionRequests.length /
MAX_GAS_LIMIT)`; otherwise it returns the requests and an empty invalid
list. -/
def buildBundlesF (env : ChainEnv) (bundleItems : List MatchOrdersBundleItem)
    (numBundles : Nat) :
    Nat → Option (List TxRequest × List MatchOrdersBundleItem)
  | 0 => none
  | fuel + 1 =>
      let transactionRequests := bundleTxRequests env bundleItems numBundles
      let transactionsTooBig :=
        transactionRequests.any (fun t => decide (env.maxGasLimit < t.gasLimit))
      if transactionsTooBig then
        let estimatedNumBundles := ceilDivNat transactionRequests.length env.maxGasLimit
        let updatedNumBundles :=
          if estimatedNumBundles ≤ numBundles then numBundles * 2
          else estimatedNumBundles
        buildBundlesF env bundleItems updatedNumBundles fuel
      else
        some (transactionRequests, [])

/-- What the encoder returns (lines 129-191): the requests and the invalid
items it surfaces (a plain item list — the source return type carries no
error codes). -/
structure EncoderResult where
  txRequests : List TxRequest
  invalidBundleItems : List MatchOrdersBundleItem
deriving DecidableEq

/-- The typed rejections the encoder accumulates across the three stages
into its local `invalidBundleItems` variable (lines 134-175). The variable
is dead: neither return of the encoder uses it. -/
def encoderAccumulatedInvalid (env : ChainEnv)
    (bundleItems : List MatchOrdersBundleItem) :
    List (MatchOrdersBundleItem × FirestoreOrderMatchErrorCode) :=
  let vres := matchOrdersVerifier env bundleItems
  let sres := checkNftSellerApprovalAndBalance env vres.validBundleItems
  let bres := checkNftBuyerApprovalAndBalance env sres.1
  invalidFromVerifyWithError env bundleItems
    ++ sres.2.map (fun p => (p.1.item, p.2))
    ++ bres.2.map (fun p => (p.1.item, p.2))

/-- The MatchOrders encoder closure (lines 129-191): verify, run the seller
pass then the buyer pass, return early with only the verifier's invalid
items when fewer than `minBundleSize` items survive, otherwise pack the
survivors (passed to `buildBundles` as bare bundle items — the cast at line
186) and return the requests together with the verifier's invalid items
and `buildBundles`'s (always empty) invalid items. -/
def matchOrdersEncoder (env : ChainEnv)
    (bundleItems : List MatchOrdersBundleItem) (minBundleSize fuel : Nat) :
    Option EncoderResult :=
  let vres := matchOrdersVerifier env bundleItems
  let invalidFromVerify := vres.invalidBundleItems
  let sres := checkNftSellerApprovalAndBalance env vres.validBundleItems
  let bres := checkNftBuyerApprovalAndBalance env sres.1
  if bres.1.length < minBundleSize then
    some { txRequests := [], invalidBundleItems := invalidFromVerify }
  else
    (buildBundlesF env (bres.1.map MOWithPrice.item) 1 fuel).map (fun r =>
      { txRequests := r.1, invalidBundleItems := invalidFromVerify ++ r.2 })

/-! ## Concrete fixtures used by witnesses and counterexamples -/

/-- A listing-side signed order. -/
def sellOrderW : ChainOBOrder :=
  { isSellOrder := true
    signer := "0xseller"
    constraints := [.num 1, .dec 100, .dec 50, .dec 10, .dec 20, .dec 7]
    nfts := [⟨"0xcol", [⟨7, 1⟩]⟩]
    execParamsComplication := "0xcomp"
    execParamsCurrency := "0xcur"
    extraParams := ""
    sig := "sigS" }

/-- An offer-side signed order. -/
def buyOrderW : ChainOBOrder :=
  { sellOrderW with isSellOrder := false, signer := "0xbuyer", sig := "sigB" }

/-- A constructed synthetic order for the sample item. -/
def constructedW : ChainOBOrder :=
  { buyOrderW with signer := "0xseller" }

/-- A sample MatchOrders bundle item. -/
def itemMO : MatchOrdersBundleItem :=
  { id := "m1"
    chainId := "1"
    exchangeAddress := "0xexch"
    sell := sellOrderW
    buy := buyOrderW
    sellOrderHash := "sh"
    buyOrderHash := "bh"
    constructed := constructedW }

/-- A chain environment on which every check passes: the verifier settles
`true`, the seller owns the token and has approved the exchange, the buyer
has ample allowance and balance, gas estimates are small. -/
def envBase : ChainEnv :=
  { exchangeAddress := "0xexch"
    signerAddress := "0xsigner"
    chainIdNum := 1
    wrappedNative := "0xweth"
    maxGasLimit := 100
    verifyMatchOrders := fun _ _ _ _ => some true
    obOrderPrice := fun _ => 10
    isApprovedForAll := fun _ _ _ => true
    ownerOf := fun _ _ => "0xseller"
    allowance := fun _ _ _ => 1000
    balanceOf := fun _ _ => 1000
    encodeCallData := fun _ => "cd"
    estimateGas := fun _ => some 10 }

/-- Like `envBase` but every token is owned by somebody else, so the seller
pass rejects every item. -/
def envC1 : ChainEnv := { envBase with ownerOf := fun _ _ => "0xother" }

/-- Like `envBase` but every gas estimate is 200, so every bucket's gas
limit is 240, above the ceiling of 100, whatever the split. -/
def envBig : ChainEnv := { envBase with estimateGas := fun _ => some 200 }

/-- The transaction request `buildBundles` produces for the single bucket
of `[itemMO]` under `envBase`: gas limit `10 * 12 / 10 = 12`. -/
def txOkB : TxRequest :=
  { toAddr := "0xexch", gasLimit := 12, data := "cd", chainId := 1, txType := 2 }

/-- Like `envBase` but `ownerOf` answers with a checksummed (mixed-case)
address. -/
def envCased : ChainEnv := { envBase with ownerOf := fun _ _ => "0xAb" }

/-- A bundle item whose seller signer is the same checksummed address. -/
def itemCased : BundleItem :=
  .matchOrders { itemMO with sell := { sellOrderW with signer := "0xAb" } }

/-- Provider environment: opaque order hashing and exchange-address
lookup. -/
def envProv : ProviderEnv :=
  { orderHash := fun _ => "0xhash", exchangeAddressOf := fun _ => "0xexch" }

/-- A listing document. -/
def listingFs : FirestoreOrder :=
  { chainId := "1"
    isSellOrder := true
    nonce := 7
    complicationAddress := "0xcomp"
    currencyAddress := "0xcur"
    signedOrder := sellOrderW }

/-- An offer document whose signed order carries a hex-string constraint
entry (a legal BigNumberish that is not in canonical decimal form). -/
def offerHexFs : FirestoreOrder :=
  { chainId := "1"
    isSellOrder := false
    nonce := 9
    complicationAddress := "0xcomp"
    currencyAddress := "0xcur"
    signedOrder :=
      { buyOrderW with constraints := [.num 1, .hex 10, .dec 50, .dec 10, .dec 20, .dec 9] } }

/-- An active one-to-one match document. -/
def matchOTOActive : FirestoreOrderMatch :=
  { status := .active, methodType := .matchOneToOneOrders, orderItems := [] }

/-- An active MatchOrders match document. -/
def matchMOActive : FirestoreOrderMatch :=
  { status := .active, methodType := .matchOrders, orderItems := [⟨"0xcol", [⟨7, 1⟩]⟩] }

/-! ## Theorems -/

theorem tokenEntry_map_id (ts : List OrderTokenEntry) :
    ts.map (fun t => OrderTokenEntry.mk t.tokenId t.numTokens) = ts := by
  induction ts with
  | nil => rfl
  | cons t rest ih => simp [ih]

theorem flattenOrderItems_foldl (collections : List MatchOrderItemsCollection)
    (acc : List ChainNFTs × Nat) :
    collections.foldl flattenStep acc =
      (acc.1 ++ collections.map (fun c => ChainNFTs.mk c.collectionAddress c.tokens),
       acc.2 + (collections.map (fun c => max 1 c.tokens.length)).sum) := by
  induction collections generalizing acc with
  | nil => simp
  | cons c rest ih =>
      rw [List.foldl_cons, ih]
      simp only [flattenStep, tokenEntry_map_id, List.map_cons, List.sum_cons,
        List.append_assoc, List.singleton_append, Prod.mk.injEq]
      refine ⟨trivial, ?_⟩
      split <;> omega

/-- C9: the flattening emits one `{collection, tokens}` entry per
`orderItems` collection, in order, empty token lists included, and
`numMatches` is the sum over collections of `max 1 (number of tokens)`. -/
theorem claim_C9_flattening (collections : List MatchOrderItemsCollection) :
    (flattenOrderItems collections).1 =
        collections.map (fun c => ChainNFTs.mk c.collectionAddress c.tokens) ∧
    (flattenOrderItems collections).2 =
        (collections.map (fun c => max 1 c.tokens.length)).sum := by
  unfold flattenOrderItems
  rw [flattenOrderItems_foldl]
  simp

/-- C10: the constructed synthetic order of a MatchOrders bundle has
`isSellOrder = false` yet copies signer, extraParams and signature from the
listing's signed order and its execParams from the listing's complication
and currency addresses; constraints positions 1-4 are the offer's entries
(1 and 2 normalized), position 5 is the offer's nonce, and position 0 is
`numMatches`. -/
theorem claim_C10_constructed (env : ProviderEnv) (id : String)
    (listing offer : FirestoreOrder) (numMatches : Nat)
    (chainNfts : List ChainNFTs) (c0 c1 c2 c3 c4 c5 : BigNumberish)
    (h : offer.signedOrder.constraints = [c0, c1, c2, c3, c4, c5]) :
    (getMatchOrdersBundle env id listing offer numMatches chainNfts).constructed =
      { isSellOrder := false
        signer := listing.signedOrder.signer
        constraints := [.num numMatches, bnToString c1, bnToString c2, c3, c4, .num offer.nonce]
        nfts := chainNfts
        execParamsComplication := listing.complicationAddress
        execParamsCurrency := listing.currencyAddress
        extraParams := listing.signedOrder.extraParams
        sig := listing.signedOrder.sig } := by
  simp [getMatchOrdersBundle, h]

theorem claim_C10_constructed_witness :
    (getMatchOrdersBundle envProv "m1" listingFs offerHexFs 3 []).constructed =
      { isSellOrder := false
        signer := "0xseller"
        constraints := [.num 3, .dec 10, .dec 50, .dec 10, .dec 20, .num 9]
        nfts := []
        execParamsComplication := "0xcomp"
        execParamsCurrency := "0xcur"
        extraParams := ""
        sig := "sigS" } :=
  claim_C10_constructed envProv "m1" listingFs offerHexFs 3 []
    (.num 1) (.hex 10) (.dec 50) (.dec 10) (.dec 20) (.dec 9) rfl

theorem bnToString_map_allCanonical (l : List BigNumberish) :
    (l.map bnToString).all BigNumberish.isCanonicalDecimal = true := by
  induction l with
  | nil => rfl
  | cons b rest ih => simp [bnToString, BigNumberish.isCanonicalDecimal, ih]

/-- C5 counterexample: for a MatchOneToOneOrders match the builder returns
the offer's signed order unmodified, so a non-canonical constraints entry
(here a hex string) survives in the returned bundle item. -/
theorem claim_C5_counterexample :
    ((createBundleItem envProv "m1" listingFs offerHexFs matchOTOActive).buyOrder.constraints.all
        BigNumberish.isCanonicalDecimal) = false := by
  rfl

/-- C5 amended: only on the MatchOrders path are both underlying signed
orders' constraints normalized to canonical decimal strings. -/
theorem claim_C5_matchOrders_normalized (env : ProviderEnv) (id : String)
    (listing offer : FirestoreOrder) (m : FirestoreOrderMatch)
    (h : m.methodType = FirestoreOrderMatchMethod.matchOrders) :
    ((createBundleItem env id listing offer m).sellOrder.constraints.all
        BigNumberish.isCanonicalDecimal) = true ∧
    ((createBundleItem env id listing offer m).buyOrder.constraints.all
        BigNumberish.isCanonicalDecimal) = true := by
  obtain ⟨st, mt, oi⟩ := m
  simp only at h
  subst h
  simp [createBundleItem, getMatchOrdersBundle, BundleItem.sellOrder, BundleItem.buyOrder]
  exact ⟨fun x _ => rfl, fun x _ => rfl⟩

theorem claim_C5_matchOrders_normalized_witness :
    ((createBundleItem envProv "m1" listingFs offerHexFs matchMOActive).sellOrder.constraints.all
        BigNumberish.isCanonicalDecimal) = true ∧
    ((createBundleItem envProv "m1" listingFs offerHexFs matchMOActive).buyOrder.constraints.all
        BigNumberish.isCanonicalDecimal) = true :=
  claim_C5_matchOrders_normalized envProv "m1" listingFs offerHexFs matchMOActive rfl

/-- C8 counterexample: a match whose batched read yields two offers and no
listing. The claim asks for a MultipleOrdersUnsupported failure reported
back via an error-state write; the code fails with 'Order not found'
(OrderMissing) and only logs it — no state write, no
MultipleOrdersUnsupported. -/
theorem claim_C8_counterexample :
    handleOrderMatchUpdate envProv "m1" matchOTOActive [some offerHexFs, some offerHexFs]
        = [ProviderEffect.logError BuildError.orderMissing] ∧
    1 < (offersOf [some offerHexFs, some offerHexFs]).length := by
  constructor
  · rfl
  · decide

/-- C8 amended: the empty-partition check takes precedence — `getOrders`
fails with OrderMissing exactly when either partition is empty, and with
MultipleOrdersUnsupported exactly when both are inhabited and one has more
than one order; every build error is logged and nothing else: the handler
emits no event and writes no error state back to the match document. -/
theorem claim_C8_build_failures (env : ProviderEnv) (id : String)
    (m : FirestoreOrderMatch) (fetched : List (Option FirestoreOrder)) :
    (getOrders fetched = .error .orderMissing ↔
        (listingsOf fetched = [] ∨ offersOf fetched = [])) ∧
    (getOrders fetched = .error .multipleOrdersUnsupported ↔
        (listingsOf fetched ≠ [] ∧ offersOf fetched ≠ [] ∧
          (1 < (listingsOf fetched).length ∨ 1 < (offersOf fetched).length))) ∧
    (∀ e, m.status = .active → getOrders fetched = .error e →
        handleOrderMatchUpdate env id m fetched = [.logError e]) := by
  refine ⟨?_, ?_, ?_⟩
  · cases hL : listingsOf fetched with
    | nil => simp [getOrders, hL]
    | cons a as =>
        cases hO : offersOf fetched with
        | nil => simp [getOrders, hL, hO]
        | cons b bs =>
            simp only [getOrders, hL, hO, List.head?_cons]
            split <;> simp
  · cases hL : listingsOf fetched with
    | nil => simp [getOrders, hL]
    | cons a as =>
        cases hO : offersOf fetched with
        | nil => simp [getOrders, hL, hO]
        | cons b bs =>
            simp only [getOrders, hL, hO, List.head?_cons]
            split <;> rename_i hcond <;> simp at hcond ⊢ <;> exact hcond
  · intro e hst herr
    simp [handleOrderMatchUpdate, hst, herr]

theorem min_flip (a b : Nat) : (if b ≤ a then b else a) = min a b := by
  simp only [Nat.min_def]
  split <;> split <;> omega

theorem matchOrdersVerifier_foldl (env : ChainEnv)
    (items : List MatchOrdersBundleItem) (acc : VerifierResult) :
    items.foldl (matchOrdersVerifierStep env) acc =
      { validBundleItems := acc.validBundleItems ++
          (items.filter (fun it => decide (settlesTrue env it))).map
            (fun it => ⟨it, min (env.obOrderPrice it.sell) (env.obOrderPrice it.buy)⟩),
        invalidBundleItems := acc.invalidBundleItems ++
          items.filter (fun it => !(decide (settlesTrue env it))) } := by
  induction items generalizing acc with
  | nil => simp
  | cons it rest ih =>
      rw [List.foldl_cons, ih]
      by_cases h : settlesTrue env it
      · simp [matchOrdersVerifierStep, h, List.filter_cons, min_flip]
      · simp [matchOrdersVerifierStep, h, List.filter_cons]

/-- C4: the verifier's valid list is exactly the items whose
`verifyMatchOrders` call settled fulfilled with value `true`, each carrying
`currentPrice = min(sellCurve(now), buyCurve(now))`; every other item
(rejected call or `false` value) lands in the invalid list, and the
encoder attributes code `OrderInvalid` to each of them. -/
theorem claim_C4_verifier (env : ChainEnv) (items : List MatchOrdersBundleItem) :
    (matchOrdersVerifier env items).validBundleItems =
        (items.filter (fun it => decide (settlesTrue env it))).map
          (fun it => ⟨it, min (env.obOrderPrice it.sell) (env.obOrderPrice it.buy)⟩) ∧
    (matchOrdersVerifier env items).invalidBundleItems =
        items.filter (fun it => !(decide (settlesTrue env it))) ∧
    invalidFromVerifyWithError env items =
        (items.filter (fun it => !(decide (settlesTrue env it)))).map
          (fun it => (it, FirestoreOrderMatchErrorCode.orderInvalid)) := by
  have h := matchOrdersVerifier_foldl env items ⟨[], []⟩
  refine ⟨?_, ?_, ?_⟩
  · rw [matchOrdersVerifier, h]; simp
  · rw [matchOrdersVerifier, h]; simp
  · rw [invalidFromVerifyWithError, matchOrdersVerifier, h]; simp

theorem checkTokens_eq_none_iff (env : ChainEnv) (c s : String)
    (ts : List OrderTokenEntry) :
    checkTokens env c s ts = none ↔
      ∀ t ∈ ts, s = strToLower (env.ownerOf c t.tokenId) := by
  induction ts with
  | nil => simp [checkTokens]
  | cons t rest ih =>
      simp only [checkTokens]
      by_cases h : s = strToLower (env.ownerOf c t.tokenId)
      · rw [if_neg (by simp [h]), ih]
        constructor
        · intro hall t2 ht2
          rcases List.mem_cons.1 ht2 with rfl | hmem
          · exact h
          · exact hall t2 hmem
        · intro hall t2 ht2
          exact hall t2 (List.mem_cons_of_mem _ ht2)
      · rw [if_pos h]
        constructor
        · intro hfalse; simp at hfalse
        · intro hall
          exact absurd (hall t (List.mem_cons_self t rest)) h

theorem checkTokens_eq_some (env : ChainEnv) (c s : String)
    (ts : List OrderTokenEntry) (e : FirestoreOrderMatchErrorCode)
    (h : checkTokens env c s ts = some e) :
    e = .insufficientTokenBalance ∧
      ∃ t ∈ ts, s ≠ strToLower (env.ownerOf c t.tokenId) := by
  induction ts with
  | nil => simp [checkTokens] at h
  | cons t rest ih =>
      simp only [checkTokens] at h
      by_cases hs : s = strToLower (env.ownerOf c t.tokenId)
      · rw [if_neg (by simp [hs])] at h
        obtain ⟨he, t2, ht2, hne⟩ := ih h
        exact ⟨he, t2, List.mem_cons_of_mem _ ht2, hne⟩
      · rw [if_pos hs] at h
        obtain rfl : FirestoreOrderMatchErrorCode.insufficientTokenBalance = e :=
          Option.some.inj h
        exact ⟨rfl, t, List.mem_cons_self t rest, hs⟩

theorem checkCollections_eq_none_iff (env : ChainEnv) (s : String)
    (cs : List ChainNFTs) :
    checkCollections env s cs = none ↔
      ∀ c ∈ cs, env.isApprovedForAll c.collection s env.exchangeAddress = true ∧
        ∀ t ∈ c.tokens, s = strToLower (env.ownerOf c.collection t.tokenId) := by
  induction cs with
  | nil => simp [checkCollections]
  | cons c rest ih =>
      cases ha : env.isApprovedForAll c.collection s env.exchangeAddress with
      | false =>
          rw [checkCollections, if_pos ha]
          simp only [List.mem_cons]
          constructor
          · intro h; cases h
          · intro h
            have := (h c (Or.inl rfl)).1
            rw [ha] at this
            cases this
      | true =>
          rw [checkCollections, if_neg (by simp [ha])]
          cases hk : checkTokens env c.collection s c.tokens with
          | some e =>
              simp only []
              constructor
              · intro h; cases h
              · intro h
                have htok := (h c (by simp)).2
                rw [(checkTokens_eq_none_iff env c.collection s c.tokens).2 htok] at hk
                cases hk
          | none =>
              simp only [ih]
              constructor
              · intro h c2 hc2
                rcases List.mem_cons.1 hc2 with rfl | hmem
                · exact ⟨ha, (checkTokens_eq_none_iff env c2.collection s c2.tokens).1 hk⟩
                · exact h c2 hmem
              · intro h c2 hc2
                exact h c2 (List.mem_cons_of_mem _ hc2)

theorem checkCollections_eq_some_notApproved (env : ChainEnv) (s : String)
    (cs : List ChainNFTs)
    (h : checkCollections env s cs = some .notApprovedToTransferToken) :
    ∃ c ∈ cs, env.isApprovedForAll c.collection s env.exchangeAddress = false := by
  induction cs with
  | nil => simp [checkCollections] at h
  | cons c rest ih =>
      cases ha : env.isApprovedForAll c.collection s env.exchangeAddress with
      | false => exact ⟨c, by simp, ha⟩
      | true =>
          rw [checkCollections, if_neg (by simp [ha])] at h
          cases hk : checkTokens env c.collection s c.tokens with
          | some e =>
              rw [hk] at h
              obtain rfl := Option.some.inj h
              obtain ⟨he, -⟩ := checkTokens_eq_some env c.collection s c.tokens _ hk
              cases he
          | none =>
              rw [hk] at h
              obtain ⟨c2, hc2, hfalse⟩ := ih h
              exact ⟨c2, List.mem_cons_of_mem _ hc2, hfalse⟩

theorem checkCollections_eq_some_insufficient (env : ChainEnv) (s : String)
    (cs : List ChainNFTs)
    (h : checkCollections env s cs = some .insufficientTokenBalance) :
    ∃ c ∈ cs, env.isApprovedForAll c.collection s env.exchangeAddress = true ∧
      ∃ t ∈ c.tokens, s ≠ strToLower (env.ownerOf c.collection t.tokenId) := by
  induction cs with
  | nil => simp [checkCollections] at h
  | cons c rest ih =>
      cases ha : env.isApprovedForAll c.collection s env.exchangeAddress with
      | false =>
          rw [checkCollections, if_pos ha] at h
          cases Option.some.inj h
      | true =>
          rw [checkCollections, if_neg (by simp [ha])] at h
          cases hk : checkTokens env c.collection s c.tokens with
          | some e =>
              rw [hk] at h
              obtain rfl := Option.some.inj h
              obtain ⟨-, t, ht, hne⟩ := checkTokens_eq_some env c.collection s c.tokens _ hk
              exact ⟨c, by simp, ha, t, ht, hne⟩
          | none =>
              rw [hk] at h
              obtain ⟨c2, hc2, hap, t, ht, hne⟩ := ih h
              exact ⟨c2, List.mem_cons_of_mem _ hc2, hap, t, ht, hne⟩

theorem checkCollections_some_cases (env : ChainEnv) (s : String)
    (cs : List ChainNFTs) (e : FirestoreOrderMatchErrorCode)
    (h : checkCollections env s cs = some e) :
    e = .notApprovedToTransferToken ∨ e = .insufficientTokenBalance := by
  induction cs with
  | nil => simp [checkCollections] at h
  | cons c rest ih =>
      cases ha : env.isApprovedForAll c.collection s env.exchangeAddress with
      | false =>
          rw [checkCollections, if_pos ha] at h
          obtain rfl := Option.some.inj h
          exact Or.inl rfl
      | true =>
          rw [checkCollections, if_neg (by simp [ha])] at h
          cases hk : checkTokens env c.collection s c.tokens with
          | some e2 =>
              rw [hk] at h
              obtain rfl := Option.some.inj h
              obtain ⟨he, -⟩ := checkTokens_eq_some env c.collection s c.tokens _ hk
              exact Or.inr he
          | none =>
              rw [hk] at h
              exact ih h

/-- C6 counterexample: the comparison at line 312 lowercases only the
`ownerOf` result. With the checksummed signer `0xAb` and `ownerOf`
answering the identical string `0xAb` — equal case-insensitively, and even
literally — the seller pass still rejects with
`InsufficientTokenBalance`. -/
theorem claim_C6_counterexample :
    checkSellerItem envCased itemCased =
        some FirestoreOrderMatchErrorCode.insufficientTokenBalance ∧
    strToLower itemCased.sellOrder.signer =
        strToLower (envCased.ownerOf "0xcol" 7) := by
  constructor
  · rfl
  · rfl

/-- C6 amended: the seller pass takes the nft list from `constructed.nfts`
for MatchOrders items and `sell.nfts` for one-to-one items; per collection
it rejects with `NotApprovedToTransferToken` when `isApprovedForAll(signer,
exchange)` is false, and otherwise per token rejects with
`InsufficientTokenBalance` unless the signer equals the lowercased
`ownerOf(tokenId)` exactly — only the owner side is lowercased, so the
comparison is not case-insensitive in the signer. -/
theorem claim_C6_seller_pass (env : ChainEnv) (item : BundleItem) :
    (∀ mo : MatchOrdersBundleItem,
        (BundleItem.matchOrders mo).sellerNfts = mo.constructed.nfts) ∧
    (∀ oo : MatchOrdersOneToOneBundleItem,
        (BundleItem.matchOrdersOneToOne oo).sellerNfts = oo.sell.nfts) ∧
    (checkSellerItem env item = none ↔
        ∀ c ∈ item.sellerNfts,
          env.isApprovedForAll c.collection item.sellOrder.signer env.exchangeAddress = true ∧
          ∀ t ∈ c.tokens,
            item.sellOrder.signer = strToLower (env.ownerOf c.collection t.tokenId)) ∧
    (checkSellerItem env item = some .notApprovedToTransferToken →
        ∃ c ∈ item.sellerNfts,
          env.isApprovedForAll c.collection item.sellOrder.signer env.exchangeAddress = false) ∧
    (checkSellerItem env item = some .insufficientTokenBalance →
        ∃ c ∈ item.sellerNfts,
          env.isApprovedForAll c.collection item.sellOrder.signer env.exchangeAddress = true ∧
          ∃ t ∈ c.tokens,
            item.sellOrder.signer ≠ strToLower (env.ownerOf c.collection t.tokenId)) ∧
    (∀ e, checkSellerItem env item = some e →
        e = .notApprovedToTransferToken ∨ e = .insufficientTokenBalance) := by
  refine ⟨fun mo => rfl, fun oo => rfl, ?_, ?_, ?_, ?_⟩
  · exact checkCollections_eq_none_iff env item.sellOrder.signer item.sellerNfts
  · exact checkCollections_eq_some_notApproved env item.sellOrder.signer item.sellerNfts
  · exact checkCollections_eq_some_insufficient env item.sellOrder.signer item.sellerNfts
  · exact fun e => checkCollections_some_cases env item.sellOrder.signer item.sellerNfts e

theorem expectedCost_flatten (env : ChainEnv) (currency : String) (p : Nat) :
    (if currency = env.wrappedNative then p * 11 / 10 + 0 else p * 11 / 10)
      = p * 11 / 10 := by
  split <;> rfl

theorem checkCurrencies_eq_none_iff (env : ChainEnv) (buyer : String)
    (p : Nat) (cs : List String) :
    checkCurrencies env buyer p cs = none ↔
      ∀ c ∈ cs, p * 11 / 10 ≤ env.allowance c buyer env.exchangeAddress ∧
        p * 11 / 10 ≤ env.balanceOf c buyer := by
  induction cs with
  | nil => simp [checkCurrencies]
  | cons c rest ih =>
      simp only [checkCurrencies, expectedCost_flatten]
      by_cases ha : env.allowance c buyer env.exchangeAddress < p * 11 / 10
      · rw [if_pos ha]
        constructor
        · intro hfalse; simp at hfalse
        · intro hall
          exact absurd (hall c (List.mem_cons_self c rest)).1 (by omega)
      · rw [if_neg ha]
        by_cases hb : env.balanceOf c buyer < p * 11 / 10
        · rw [if_pos hb]
          constructor
          · intro hfalse; simp at hfalse
          · intro hall
            exact absurd (hall c (List.mem_cons_self c rest)).2 (by omega)
        · rw [if_neg hb, ih]
          constructor
          · intro hall c2 hc2
            rcases List.mem_cons.1 hc2 with rfl | hmem
            · exact ⟨by omega, by omega⟩
            · exact hall c2 hmem
          · intro hall c2 hc2
            exact hall c2 (List.mem_cons_of_mem _ hc2)

theorem checkCurrencies_eq_some_allowance (env : ChainEnv) (buyer : String)
    (p : Nat) (cs : List String)
    (h : checkCurrencies env buyer p cs = some .insufficientCurrencyAllowance) :
    ∃ c ∈ cs, env.allowance c buyer env.exchangeAddress < p * 11 / 10 := by
  induction cs with
  | nil => simp [checkCurrencies] at h
  | cons c rest ih =>
      simp only [checkCurrencies, expectedCost_flatten] at h
      by_cases ha : env.allowance c buyer env.exchangeAddress < p * 11 / 10
      · exact ⟨c, List.mem_cons_self c rest, ha⟩
      · rw [if_neg ha] at h
        by_cases hb : env.balanceOf c buyer < p * 11 / 10
        · rw [if_pos hb] at h
          cases Option.some.inj h
        · rw [if_neg hb] at h
          obtain ⟨c2, hc2, hlt⟩ := ih h
          exact ⟨c2, List.mem_cons_of_mem _ hc2, hlt⟩

theorem checkCurrencies_eq_some_balance (env : ChainEnv) (buyer : String)
    (p : Nat) (cs : List String)
    (h : checkCurrencies env buyer p cs = some .insufficientCurrencyBalance) :
    ∃ c ∈ cs, p * 11 / 10 ≤ env.allowance c buyer env.exchangeAddress ∧
      env.balanceOf c buyer < p * 11 / 10 := by
  induction cs with
  | nil => simp [checkCurrencies] at h
  | cons c rest ih =>
      simp only [checkCurrencies, expectedCost_flatten] at h
      by_cases ha : env.allowance c buyer env.exchangeAddress < p * 11 / 10
      · rw [if_pos ha] at h
        cases Option.some.inj h
      · rw [if_neg ha] at h
        by_cases hb : env.balanceOf c buyer < p * 11 / 10
        · rw [if_pos hb] at h
          exact ⟨c, List.mem_cons_self c rest, by omega, hb⟩
        · rw [if_neg hb] at h
          obtain ⟨c2, hc2, hle, hlt⟩ := ih h
          exact ⟨c2, List.mem_cons_of_mem _ hc2, hle, hlt⟩

theorem checkCurrencies_some_cases (env : ChainEnv) (buyer : String)
    (p : Nat) (cs : List String) (e : FirestoreOrderMatchErrorCode)
    (h : checkCurrencies env buyer p cs = some e) :
    e = .insufficientCurrencyAllowance ∨ e = .insufficientCurrencyBalance := by
  induction cs with
  | nil => simp [checkCurrencies] at h
  | cons c rest ih =>
      simp only [checkCurrencies, expectedCost_flatten] at h
      by_cases ha : env.allowance c buyer env.exchangeAddress < p * 11 / 10
      · rw [if_pos ha] at h
        obtain rfl := Option.some.inj h
        exact Or.inl rfl
      · rw [if_neg ha] at h
        by_cases hb : env.balanceOf c buyer < p * 11 / 10
        · rw [if_pos hb] at h
          obtain rfl := Option.some.inj h
          exact Or.inr rfl
        · rw [if_neg hb] at h
          exact ih h

/-- C7: for every bundle item the buyer pass walks the deduplicated
currency set (order currency then wrapped native) with
`expectedCost = currentPrice * 11 / 10`; the item is valid iff every
currency has both allowance and balance at least the expected cost, a
rejection with `InsufficientCurrencyAllowance` pinpoints a currency with a
short allowance, one with `InsufficientCurrencyBalance` a currency with
sufficient allowance but short balance, and no other code can arise. -/
theorem claim_C7_buyer_pass (env : ChainEnv) (item : BundleItem)
    (currentPrice : Nat) :
    (buyerCurrencies env item =
        if item.buyOrder.execParamsCurrency = env.wrappedNative
        then [item.buyOrder.execParamsCurrency]
        else [item.buyOrder.execParamsCurrency, env.wrappedNative]) ∧
    (checkBuyerItem env item currentPrice = none ↔
        ∀ c ∈ buyerCurrencies env item,
          currentPrice * 11 / 10 ≤ env.allowance c item.buyOrder.signer env.exchangeAddress ∧
          currentPrice * 11 / 10 ≤ env.balanceOf c item.buyOrder.signer) ∧
    (checkBuyerItem env item currentPrice = some .insufficientCurrencyAllowance →
        ∃ c ∈ buyerCurrencies env item,
          env.allowance c item.buyOrder.signer env.exchangeAddress < currentPrice * 11 / 10) ∧
    (checkBuyerItem env item currentPrice = some .insufficientCurrencyBalance →
        ∃ c ∈ buyerCurrencies env item,
          currentPrice * 11 / 10 ≤ env.allowance c item.buyOrder.signer env.exchangeAddress ∧
          env.balanceOf c item.buyOrder.signer < currentPrice * 11 / 10) ∧
    (∀ e, checkBuyerItem env item currentPrice = some e →
        e = .insufficientCurrencyAllowance ∨ e = .insufficientCurrencyBalance) := by
  refine ⟨rfl, ?_, ?_, ?_, ?_⟩
  · exact checkCurrencies_eq_none_iff env item.buyOrder.signer currentPrice
      (buyerCurrencies env item)
  · exact checkCurrencies_eq_some_allowance env item.buyOrder.signer currentPrice
      (buyerCurrencies env item)
  · exact checkCurrencies_eq_some_balance env item.buyOrder.signer currentPrice
      (buyerCurrencies env item)
  · exact fun e => checkCurrencies_some_cases env item.buyOrder.signer currentPrice
      (buyerCurrencies env item) e

theorem listSetOrPush_length {β : Type} (acc : List β) (index : Nat) (b : β) :
    (listSetOrPush acc index b).length =
      if index < acc.length then acc.length else acc.length + 1 := by
  unfold listSetOrPush
  split <;> simp

theorem matchOrdersBucketStep_length_le (n : Nat) (hn : 1 ≤ n)
    (acc : List MatchOrdersBucket) (p : Nat × MatchOrdersBundleItem)
    (hacc : acc.length ≤ n) :
    (matchOrdersBucketStep n acc p).length ≤ n := by
  unfold matchOrdersBucketStep
  rw [listSetOrPush_length]
  have hidx : p.1 % n < n := Nat.mod_lt _ (by omega)
  split <;> omega

theorem bucketFold_length_le (n : Nat) (hn : 1 ≤ n)
    (ps : List (Nat × MatchOrdersBundleItem)) (acc : List MatchOrdersBucket)
    (hacc : acc.length ≤ n) :
    (ps.foldl (matchOrdersBucketStep n) acc).length ≤ n := by
  induction ps generalizing acc with
  | nil => simpa using hacc
  | cons p rest ih =>
      rw [List.foldl_cons]
      exact ih _ (matchOrdersBucketStep_length_le n hn acc p hacc)

theorem matchOrdersItemsToArgs_length_le (items : List MatchOrdersBundleItem)
    (n : Nat) (hn : 1 ≤ n) :
    (matchOrdersItemsToArgs items n).length ≤ n := by
  unfold matchOrdersItemsToArgs
  rw [List.length_map]
  exact bucketFold_length_le n hn items.enum [] (by simp)

theorem bundleTxRequests_length_le (env : ChainEnv)
    (items : List MatchOrdersBundleItem) (n : Nat) (hn : 1 ≤ n) :
    (bundleTxRequests env items n).length ≤ n := by
  unfold bundleTxRequests
  exact le_trans (List.length_filterMap_le _ _)
    (matchOrdersItemsToArgs_length_le items n hn)

theorem ceilDivNat_le_self (s M : Nat) (hM : 1 ≤ M) : ceilDivNat s M ≤ s := by
  unfold ceilDivNat
  have h2 : (M - 1 + M * s) / M = (M - 1) / M + s :=
    Nat.add_mul_div_left _ _ (by omega)
  have h3 : (M - 1) / M = 0 := Nat.div_eq_of_lt (by omega)
  have h1 : s + M - 1 ≤ M - 1 + M * s := by
    have := Nat.le_mul_of_pos_left s (show 0 < M by omega)
    omega
  calc (s + M - 1) / M ≤ (M - 1 + M * s) / M := Nat.div_le_div_right h1
    _ = s := by rw [h2, h3]; omega

/-- C3: whenever some surviving request's gas limit exceeds
`MAX_GAS_LIMIT`, `buildBundles` recurses with bundle count
`max(ceil(|surviving| / MAX_GAS_LIMIT), numBundles * 2)` — the source's
conditional `numBundles >= estimatedNumBundles ? numBundles * 2 :
estimatedNumBundles` coincides with that maximum because the surviving
requests never outnumber the buckets, so `estimatedNumBundles ≤
numBundles`. -/
theorem claim_C3_resplit (env : ChainEnv) (items : List MatchOrdersBundleItem)
    (numBundles fuel : Nat) (hM : 1 ≤ env.maxGasLimit) (hk : 1 ≤ numBundles)
    (hbig : (bundleTxRequests env items numBundles).any
        (fun t => decide (env.maxGasLimit < t.gasLimit)) = true) :
    buildBundlesF env items numBundles (fuel + 1) =
      buildBundlesF env items
        (max (ceilDivNat (bundleTxRequests env items numBundles).length env.maxGasLimit)
          (numBundles * 2)) fuel := by
  have hlen : (bundleTxRequests env items numBundles).length ≤ numBundles :=
    bundleTxRequests_length_le env items numBundles hk
  have hE : ceilDivNat (bundleTxRequests env items numBundles).length env.maxGasLimit
      ≤ numBundles :=
    le_trans (ceilDivNat_le_self _ _ hM) hlen
  have hmax : max (ceilDivNat (bundleTxRequests env items numBundles).length env.maxGasLimit)
      (numBundles * 2) = numBundles * 2 := Nat.max_eq_right (by omega)
  rw [hmax]
  simp only [buildBundlesF, hbig, if_true, if_pos hE]

/-- Witness for C3 at a concrete oversize estimate. -/
theorem claim_C3_resplit_witness :
    buildBundlesF envBig [itemMO] 1 (2 + 1) =
      buildBundlesF envBig [itemMO]
        (max (ceilDivNat (bundleTxRequests envBig [itemMO] 1).length envBig.maxGasLimit)
          (1 * 2)) 2 :=
  claim_C3_resplit envBig [itemMO] 1 2 (by decide) (by decide) (by rfl)

/-- C2 counterexample: with every bucket estimate fixed at 200 (gas limit
240, ceiling 100), one item re-splits forever — the claimed bound
`numBundles ≤ max(8, |items|) = 8` would end the recursion within a handful
of doublings, yet even 50 rounds produce no result and no BundleTooLarge
report. -/
theorem claim_C2_counterexample :
    buildBundlesF envBig [itemMO] 1 50 = none := by
  rfl

/-- C2 amended: the re-splitting recursion is unbounded (no
`numBundles ≤ max(8, |items|)` cutoff exists and no item is ever reported
as BundleTooLarge); whenever it does return, every returned transaction
request satisfies `gasLimit ≤ MAX_GAS_LIMIT` and the returned invalid-item
list is empty. -/
theorem claim_C2_gasLimit_bound (env : ChainEnv)
    (items : List MatchOrdersBundleItem) (numBundles fuel : Nat)
    (r : List TxRequest × List MatchOrdersBundleItem)
    (h : buildBundlesF env items numBundles fuel = some r) :
    (∀ t ∈ r.1, t.gasLimit ≤ env.maxGasLimit) ∧ r.2 = [] := by
  induction fuel generalizing numBundles with
  | zero => simp [buildBundlesF] at h
  | succ fuel ih =>
      rw [buildBundlesF] at h
      by_cases hbig : (bundleTxRequests env items numBundles).any
          (fun t => decide (env.maxGasLimit < t.gasLimit)) = true
      · rw [if_pos hbig] at h
        exact ih _ h
      · rw [if_neg hbig] at h
        obtain rfl := Option.some.inj h
        refine ⟨?_, rfl⟩
        intro t ht
        have := List.any_eq_false.1 (Bool.not_eq_true _ ▸ hbig) t ht
        simp at this
        omega

/-- Witness for C2 amended at a concrete in-budget estimate. -/
theorem claim_C2_gasLimit_bound_witness :
    (∀ t ∈ (([txOkB], []) : List TxRequest × List MatchOrdersBundleItem).1,
        t.gasLimit ≤ envBase.maxGasLimit) ∧
    (([txOkB], []) : List TxRequest × List MatchOrdersBundleItem).2 = [] :=
  claim_C2_gasLimit_bound envBase [itemMO] 1 1 ([txOkB], []) (by rfl)

/-- C1: the encoder drops non-verifier rejections. With one item that
passes verification but fails the seller ownership check, the encoder
returns no transaction request and an empty `invalidBundleItems` list —
although the seller pass rejected the item with a typed code and the
(dead) internal accumulator recorded it. -/
theorem claim_C1_rejections_dropped :
    matchOrdersEncoder envC1 [itemMO] 0 5 =
        some { txRequests := [], invalidBundleItems := [] } ∧
    checkSellerItem envC1 (.matchOrders itemMO) =
        some FirestoreOrderMatchErrorCode.insufficientTokenBalance ∧
    encoderAccumulatedInvalid envC1 [itemMO] =
        [(itemMO, FirestoreOrderMatchErrorCode.insufficientTokenBalance)] := by
  refine ⟨rfl, rfl, rfl⟩

end TxBroadcaster
